import Mathlib

/-!
Verification of the alma-bot conversational state engine.

This file gives a shallow embedding of the core of the repository:
the SQLite-backed `MemoryStore` (messages / long-term facts / mood entries,
from the defensive revision of `src/memory.js`), the context assembler
`buildMessages`, the retrying model client `chatWithLLM`, the message
handler `handleMessage` with its fact-extraction trigger, and the
proactive-engagement sweep `initiateActiveConversation`.

Modelling conventions:
- `Date.now()` is modelled by a logical clock stored in the state; every
  row insert stamps the current clock and advances it, so rows carry
  strictly increasing timestamps and list order coincides with
  `created_at` order (`ORDER BY created_at ASC` is list order,
  `ORDER BY created_at DESC` is reversed list order).
- SQL tables are lists of row records; `WHERE user_id = ?` is `List.filter`.
- SQLite treats a negative `LIMIT` bound as "no limit"; the embedding of
  `getRecent` reproduces that.
- Fallible steps (a storage read throwing inside a `try` block, the HTTP
  transport) are passed in explicitly as `Except` values or response
  oracles.
-/

namespace AlmaBot

/-- The last `n` elements of a list, in order.  `ORDER BY created_at DESC
LIMIT n` followed by a `.reverse()` back to chronological order (and
likewise `.slice(-n)`) is exactly this operation on a time-ascending list. -/
def lastN (n : Nat) (xs : List α) : List α := xs.drop (xs.length - n)

/-- Row of the `messages` table. -/
structure MsgRow where
  userId : String
  role : String
  content : String
  createdAt : Nat
deriving DecidableEq, Repr

/-- Row of the `memories` (long-term facts) table. -/
structure FactRow where
  userId : String
  fact : String
  createdAt : Nat
deriving DecidableEq, Repr

/-- Row of the `moods` table. -/
structure MoodRow where
  userId : String
  mood : String
  createdAt : Nat
deriving DecidableEq, Repr

/-- The durable state of `MemoryStore` (defensive revision of
`src/memory.js`): the three tables plus the logical clock standing for
`Date.now()`.  Rows appear in insertion order, which by construction is
strictly increasing `createdAt` order. -/
structure Store where
  messages : List MsgRow
  memories : List FactRow
  moods : List MoodRow
  clock : Nat
deriving DecidableEq, Repr

def Store.empty : Store := ⟨[], [], [], 0⟩

/-- `MemoryStore.add`: validates its inputs (a falsy `userId` or `role`
throws, leaving the table unchanged), then inserts one message row stamped
`Date.now()`. -/
def Store.add (s : Store) (userId role content : String) : Store :=
  if userId = "" ∨ role = "" then s
  else
    { s with
      messages := s.messages ++ [⟨userId, role, content, s.clock⟩]
      clock := s.clock + 1 }

/-- `MemoryStore.addImportantFact`: validates its inputs, then runs
`INSERT INTO memories ... ON CONFLICT(user_id, fact) DO NOTHING` — when a
row with the same `(user_id, fact)` already exists nothing is inserted and
no error is raised. -/
def Store.addImportantFact (s : Store) (userId fact : String) : Store :=
  if userId = "" ∨ fact = "" then s
  else if s.memories.any (fun r => r.userId == userId && r.fact == fact) then s
  else
    { s with
      memories := s.memories ++ [⟨userId, fact, s.clock⟩]
      clock := s.clock + 1 }

/-- The subquery of `deleteOldMoods`: delete the `k` oldest rows of the
given user (the first `k` of that user's rows, since rows are stored in
ascending `created_at` order), keeping every other row in place. -/
def deleteOldest (userId : String) : Nat → List MoodRow → List MoodRow
  | _, [] => []
  | 0, l => l
  | k + 1, r :: rs =>
    if r.userId == userId then deleteOldest userId k rs
    else r :: deleteOldest userId (k + 1) rs

/-- `MemoryStore.addMood`: validates its inputs, inserts one mood row, then
runs `deleteOldMoods`, which keeps only the 50 most recent rows of that
user (`DELETE ... ORDER BY created_at DESC LIMIT -1 OFFSET 50`). -/
def Store.addMood (s : Store) (userId mood : String) : Store :=
  if userId = "" ∨ mood = "" then s
  else
    let inserted := s.moods ++ [⟨userId, mood, s.clock⟩]
    let mineLen := (inserted.filter (fun r => r.userId == userId)).length
    { s with
      moods := deleteOldest userId (mineLen - 50) inserted
      clock := s.clock + 1 }

/-- `SELECT ... FROM messages WHERE user_id = ?` in ascending
`created_at` order. -/
def Store.userMessages (s : Store) (userId : String) : List MsgRow :=
  s.messages.filter (fun r => r.userId == userId)

/-- Row-level `MemoryStore.getRecent`: clamps the caller's limit with
`Math.min(limit, 50)`, selects `ORDER BY created_at DESC LIMIT maxLimit`,
then reverses back to chronological order.  SQLite disables the limit when
the bound is negative, so a negative `limit` returns the whole history. -/
def Store.getRecentRows (s : Store) (userId : String) (limit : Int) : List MsgRow :=
  let maxLimit := min limit 50
  let rows := s.userMessages userId
  if maxLimit < 0 then rows else lastN maxLimit.toNat rows

/-- `MemoryStore.getRecent` projects to the selected `role, content`
columns. -/
def Store.getRecent (s : Store) (userId : String) (limit : Int) : List (String × String) :=
  (s.getRecentRows userId limit).map (fun r => (r.role, r.content))

/-- Row-level `MemoryStore.getAll`: whole history in ascending order,
capped by `.slice(-100)` to the 100 most recent rows. -/
def Store.getAllRows (s : Store) (userId : String) : List MsgRow :=
  lastN 100 (s.userMessages userId)

/-- `MemoryStore.getAll` projects to the selected `role, content` columns. -/
def Store.getAll (s : Store) (userId : String) : List (String × String) :=
  (s.getAllRows userId).map (fun r => (r.role, r.content))

/-- `MemoryStore.getImportantFacts`: `SELECT fact FROM memories WHERE
user_id = ? ORDER BY created_at DESC`, i.e. most recent first. -/
def Store.getImportantFacts (s : Store) (userId : String) : List String :=
  ((s.memories.filter (fun r => r.userId == userId)).reverse).map (fun r => r.fact)

/-- `MemoryStore.getRecentMood`: `SELECT mood ... ORDER BY created_at DESC
LIMIT 1`, or `null` when the user has no mood rows. -/
def Store.getRecentMood (s : Store) (userId : String) : Option String :=
  ((s.moods.filter (fun r => r.userId == userId)).getLast?).map (fun r => r.mood)

/-- `MemoryStore.getChatCount`: `SELECT COUNT(*) FROM messages WHERE
user_id = ?`. -/
def Store.getChatCount (s : Store) (userId : String) : Nat :=
  (s.userMessages userId).length

/-- `MemoryStore.clear`: deletes the user's rows from all three tables. -/
def Store.clear (s : Store) (userId : String) : Store :=
  { s with
    messages := s.messages.filter (fun r => !(r.userId == userId))
    memories := s.memories.filter (fun r => !(r.userId == userId))
    moods := s.moods.filter (fun r => !(r.userId == userId)) }

/-- `MemoryStore.getUserIds`: `SELECT DISTINCT user_id FROM messages`. -/
def Store.getUserIds (s : Store) : List String :=
  (s.messages.map (fun r => r.userId)).dedup

/-- One mutating call against the store, for reasoning about arbitrary
operation sequences. -/
inductive MemOp where
  | addMsg (userId role content : String)
  | addFact (userId fact : String)
  | addMood (userId mood : String)
  | clear (userId : String)
deriving DecidableEq, Repr

def Store.applyOp (s : Store) : MemOp → Store
  | .addMsg u r c => s.add u r c
  | .addFact u f => s.addImportantFact u f
  | .addMood u m => s.addMood u m
  | .clear u => s.clear u

def runOps (ops : List MemOp) (s : Store) : Store :=
  ops.foldl Store.applyOp s

/-! Basic lemmas about `lastN`, filters and the trim helper. -/

theorem lastN_suffix (n : Nat) (xs : List α) : lastN n xs <:+ xs :=
  List.drop_suffix _ _

theorem lastN_length (n : Nat) (xs : List α) : (lastN n xs).length = min n xs.length := by
  simp [lastN]; omega

theorem lastN_mono {m n : Nat} (h : m ≤ n) (xs : List α) : lastN m xs <:+ lastN n xs := by
  unfold lastN
  have heq : xs.drop (xs.length - m)
      = (xs.drop (xs.length - n)).drop ((xs.length - m) - (xs.length - n)) := by
    rw [List.drop_drop]
    congr 1
    omega
  rw [heq]
  exact List.drop_suffix _ _

/-- Deleting one user's rows leaves any other user's filtered view intact. -/
theorem filter_comm_ne (f : α → String) {u v : String} (h : v ≠ u) (l : List α) :
    (l.filter (fun r => !(f r == u))).filter (fun r => f r == v)
      = l.filter (fun r => f r == v) := by
  rw [List.filter_filter]
  apply List.filter_congr
  intro a _
  by_cases hv : f a = v
  · simp [hv, h]
  · simp [hv]

theorem deleteOldest_filter_eq (u : String) (k : Nat) (l : List MoodRow) :
    (deleteOldest u k l).filter (fun r => r.userId == u)
      = (l.filter (fun r => r.userId == u)).drop k := by
  induction l generalizing k with
  | nil => cases k <;> simp [deleteOldest]
  | cons r rs ih =>
    cases k with
    | zero => simp [deleteOldest]
    | succ k =>
      by_cases hr : r.userId = u
      · simp [deleteOldest, hr, ih]
      · simp [deleteOldest, hr, ih]

theorem deleteOldest_filter_ne (u : String) {v : String} (h : v ≠ u) (k : Nat)
    (l : List MoodRow) :
    (deleteOldest u k l).filter (fun r => r.userId == v)
      = l.filter (fun r => r.userId == v) := by
  induction l generalizing k with
  | nil => cases k <;> simp [deleteOldest]
  | cons r rs ih =>
    cases k with
    | zero => simp [deleteOldest]
    | succ k =>
      by_cases hr : r.userId = u
      · have hrv : ¬ (r.userId = v) := by
          rw [hr]
          exact fun hc => h hc.symm
        simp [deleteOldest, hr, hrv, ih, List.filter_cons, h.symm]
      · simp [deleteOldest, hr, ih, List.filter_cons]

/-! Per-operation component lemmas: which tables each store call touches. -/

@[simp] theorem add_memories (s : Store) (u r c : String) :
    (s.add u r c).memories = s.memories := by
  unfold Store.add; split <;> rfl

@[simp] theorem add_moods (s : Store) (u r c : String) :
    (s.add u r c).moods = s.moods := by
  unfold Store.add; split <;> rfl

@[simp] theorem addImportantFact_messages (s : Store) (u f : String) :
    (s.addImportantFact u f).messages = s.messages := by
  unfold Store.addImportantFact; split
  · rfl
  · split <;> rfl

@[simp] theorem addImportantFact_moods (s : Store) (u f : String) :
    (s.addImportantFact u f).moods = s.moods := by
  unfold Store.addImportantFact; split
  · rfl
  · split <;> rfl

@[simp] theorem addMood_messages (s : Store) (u m : String) :
    (s.addMood u m).messages = s.messages := by
  unfold Store.addMood; split <;> rfl

@[simp] theorem addMood_memories (s : Store) (u m : String) :
    (s.addMood u m).memories = s.memories := by
  unfold Store.addMood; split <;> rfl

@[simp] theorem clear_messages (s : Store) (u : String) :
    (s.clear u).messages = s.messages.filter (fun r => !(r.userId == u)) := rfl

@[simp] theorem clear_memories (s : Store) (u : String) :
    (s.clear u).memories = s.memories.filter (fun r => !(r.userId == u)) := rfl

@[simp] theorem clear_moods (s : Store) (u : String) :
    (s.clear u).moods = s.moods.filter (fun r => !(r.userId == u)) := rfl

/-! The `UNIQUE(user_id, fact)` invariant of the `memories` table. -/

/-- No two rows of the `memories` table agree on both user and fact text. -/
def FactsDistinct (s : Store) : Prop :=
  s.memories.Pairwise (fun a b => a.userId ≠ b.userId ∨ a.fact ≠ b.fact)

theorem factsDistinct_empty : FactsDistinct Store.empty := List.Pairwise.nil

theorem factsDistinct_applyOp {s : Store} (h : FactsDistinct s) (op : MemOp) :
    FactsDistinct (s.applyOp op) := by
  cases op with
  | addMsg u r c =>
    unfold FactsDistinct
    rw [Store.applyOp, add_memories]
    exact h
  | addMood u m =>
    unfold FactsDistinct
    rw [Store.applyOp, addMood_memories]
    exact h
  | clear u =>
    unfold FactsDistinct
    rw [Store.applyOp, clear_memories]
    exact h.sublist (List.filter_sublist _)
  | addFact u f =>
    unfold FactsDistinct
    rw [Store.applyOp]
    unfold Store.addImportantFact
    split
    · exact h
    split
    · exact h
    · rename_i hval hany
      rw [List.pairwise_append]
      refine ⟨h, List.pairwise_singleton _ _, ?_⟩
      intro a ha b hb
      rw [List.mem_singleton] at hb
      subst hb
      by_contra hcon
      push_neg at hcon
      exact hany (List.any_eq_true.mpr ⟨a, ha, by simp [hcon.1, hcon.2]⟩)

theorem factsDistinct_runOps (ops : List MemOp) {s : Store} (h : FactsDistinct s) :
    FactsDistinct (runOps ops s) := by
  induction ops generalizing s with
  | nil => exact h
  | cons op rest ih => exact ih (factsDistinct_applyOp h op)

theorem getImportantFacts_nodup {s : Store} (h : FactsDistinct s) (u : String) :
    (s.getImportantFacts u).Nodup := by
  unfold Store.getImportantFacts
  apply List.pairwise_map.mpr
  apply List.pairwise_reverse.mpr
  have hp : (s.memories.filter (fun r => r.userId == u)).Pairwise
      (fun a b => a.userId ≠ b.userId ∨ a.fact ≠ b.fact) :=
    h.sublist (List.filter_sublist _)
  refine List.Pairwise.imp_of_mem ?_ hp
  intro a b ha hb hab
  have hau : a.userId = u := by simpa using (List.mem_filter.mp ha).2
  have hbu : b.userId = u := by simpa using (List.mem_filter.mp hb).2
  rcases hab with hid | hf
  · exact absurd (hau.trans hbu.symm) hid
  · exact fun hc => hf hc.symm

/-- A fact already stored for the user makes `addImportantFact` a complete
no-op: `ON CONFLICT DO NOTHING` inserts nothing and raises no error. -/
theorem addImportantFact_mem_noop {s : Store} {u f : String}
    (h : f ∈ s.getImportantFacts u) : s.addImportantFact u f = s := by
  unfold Store.addImportantFact
  split
  · rfl
  split
  · rfl
  · exfalso
    rename_i hval hany
    unfold Store.getImportantFacts at h
    simp only [List.mem_map, List.mem_reverse, List.mem_filter] at h
    obtain ⟨r, ⟨hrmem, hru⟩, hrf⟩ := h
    exact hany (List.any_eq_true.mpr ⟨r, hrmem, by simp_all⟩)

/-! The 50-entry retention bound of the `moods` table. -/

/-- Unfolding lemma: the `moods` table after a validated `addMood`. -/
theorem addMood_moods (s : Store) {u m : String} (h : ¬(u = "" ∨ m = "")) :
    (s.addMood u m).moods =
      deleteOldest u (((s.moods ++ [MoodRow.mk u m s.clock]).filter
        (fun r => r.userId == u)).length - 50) (s.moods ++ [MoodRow.mk u m s.clock]) := by
  unfold Store.addMood
  rw [if_neg h]

theorem addMood_count_le (s : Store) (u m w : String)
    (h : (s.moods.filter (fun r => r.userId == w)).length ≤ 50) :
    ((s.addMood u m).moods.filter (fun r => r.userId == w)).length ≤ 50 := by
  by_cases hval : u = "" ∨ m = ""
  · unfold Store.addMood
    rw [if_pos hval]
    exact h
  · rw [addMood_moods s hval]
    by_cases hw : w = u
    · subst hw
      rw [deleteOldest_filter_eq, List.length_drop]
      omega
    · rw [deleteOldest_filter_ne u hw, List.filter_append]
      have hrow : ((MoodRow.mk u m s.clock).userId == w) = false := by
        simp only [beq_eq_false_iff_ne, ne_eq]
        exact fun hc => hw hc.symm
      simp only [List.filter_cons, hrow, List.filter_nil, List.append_nil, cond_false,
        Bool.false_eq_true, if_false]
      exact h

theorem addMood_getRecentMood (s : Store) {u m : String} (h : ¬(u = "" ∨ m = "")) :
    (s.addMood u m).getRecentMood u = some m := by
  unfold Store.getRecentMood
  rw [addMood_moods s h, deleteOldest_filter_eq]
  have hfa : (s.moods ++ [MoodRow.mk u m s.clock]).filter (fun r => r.userId == u)
      = s.moods.filter (fun r => r.userId == u) ++ [MoodRow.mk u m s.clock] := by
    rw [List.filter_append]
    simp
  rw [hfa, List.length_append]
  have hk : (s.moods.filter (fun r => r.userId == u)).length + [MoodRow.mk u m s.clock].length - 50
      ≤ (s.moods.filter (fun r => r.userId == u)).length := by
    simp only [List.length_singleton]
    omega
  rw [List.drop_append_of_le_length hk, List.getLast?_concat]
  rfl

theorem moodBounded_runOps (ops : List MemOp) {s : Store}
    (h : ∀ u, (s.moods.filter (fun r => r.userId == u)).length ≤ 50) (u : String) :
    ((runOps ops s).moods.filter (fun r => r.userId == u)).length ≤ 50 := by
  induction ops generalizing s with
  | nil => exact h u
  | cons op rest ih =>
    refine ih (fun v => ?_)
    cases op with
    | addMsg u2 r c => rw [Store.applyOp, add_moods]; exact h v
    | addFact u2 f => rw [Store.applyOp, addImportantFact_moods]; exact h v
    | addMood u2 m => exact addMood_count_le s u2 m v (h v)
    | clear u2 =>
      rw [Store.applyOp, clear_moods]
      have h1 : List.Sublist (s.moods.filter (fun r => !(r.userId == u2))) s.moods :=
        List.filter_sublist _
      have h2 := h1.filter (fun r => r.userId == v)
      exact le_trans h2.length_le (h v)

theorem getRecentMood_none {s : Store} {u : String}
    (h : s.moods.filter (fun r => r.userId == u) = []) : s.getRecentMood u = none := by
  unfold Store.getRecentMood
  rw [h]
  rfl

/-- C4: after any sequence of `addImportantFact` calls (interleaved with the
other store operations), `getImportantFacts` contains no duplicate fact
text; and inserting a fact text already stored for the same user is a
complete no-op — the store (rows and their order) is unchanged and no
error is raised (`ON CONFLICT(user_id, fact) DO NOTHING`). -/
theorem facts_nodup_idempotent (ops : List MemOp) (u : String) :
    (Store.getImportantFacts (runOps ops Store.empty) u).Nodup ∧
    ∀ f, f ∈ Store.getImportantFacts (runOps ops Store.empty) u →
      (runOps ops Store.empty).addImportantFact u f = runOps ops Store.empty :=
  ⟨getImportantFacts_nodup (factsDistinct_runOps ops factsDistinct_empty) u,
   fun _ hf => addImportantFact_mem_noop hf⟩

def c4Ops : List MemOp :=
  [MemOp.addFact "u" "likes cats", MemOp.addFact "u" "plays go",
   MemOp.addFact "u" "likes cats"]

theorem facts_nodup_idempotent_witness :
    "likes cats" ∈ Store.getImportantFacts (runOps c4Ops Store.empty) "u" ∧
    (Store.getImportantFacts (runOps c4Ops Store.empty) "u").Nodup ∧
    (runOps c4Ops Store.empty).addImportantFact "u" "likes cats" = runOps c4Ops Store.empty :=
  ⟨by decide, (facts_nodup_idempotent c4Ops "u").1,
   (facts_nodup_idempotent c4Ops "u").2 "likes cats" (by decide)⟩

/-- C5: after any sequence of store operations the `moods` table holds at
most 50 rows for each user (insert-then-trim), and `getRecentMood` returns
the most recently inserted mood — right after a validated `addMood u m` it
returns `m` — or `none` when the user has no stored mood. -/
theorem moods_bounded_recent (ops : List MemOp) (u : String) :
    ((runOps ops Store.empty).moods.filter (fun r => r.userId == u)).length ≤ 50 ∧
    (∀ m, ¬(u = "" ∨ m = "") →
      ((runOps ops Store.empty).addMood u m).getRecentMood u = some m) ∧
    ((runOps ops Store.empty).moods.filter (fun r => r.userId == u) = [] →
      (runOps ops Store.empty).getRecentMood u = none) :=
  ⟨moodBounded_runOps ops (fun _ => by simp [Store.empty]) u,
   fun _ hm => addMood_getRecentMood _ hm,
   fun h => getRecentMood_none h⟩

def c5Ops : List MemOp := [MemOp.addMood "u" "happy", MemOp.addMood "u" "calm"]

theorem moods_bounded_recent_witness :
    (¬("u" = "" ∨ "tired" = "")) ∧
    ((runOps c5Ops Store.empty).moods.filter (fun r => r.userId == "u")).length ≤ 50 ∧
    ((runOps c5Ops Store.empty).addMood "u" "tired").getRecentMood "u" = some "tired" ∧
    ((runOps c5Ops Store.empty).moods.filter (fun r => r.userId == "w") = []) ∧
    (runOps c5Ops Store.empty).getRecentMood "w" = none :=
  ⟨by decide, (moods_bounded_recent c5Ops "u").1,
   (moods_bounded_recent c5Ops "u").2.1 "tired" (by decide),
   by decide,
   (moods_bounded_recent c5Ops "w").2.2 (by decide)⟩

/-- C9: `clear u` is frame-local — for any other user `v`, every read
operation (`getAll`, `getRecent` at every limit, `getImportantFacts`,
`getRecentMood`, `getChatCount`) returns exactly what it returned before
the clear. -/
theorem clear_frame_other_users (s : Store) (u v : String) (h : u ≠ v) :
    (s.clear u).getAll v = s.getAll v ∧
    (∀ n : Int, (s.clear u).getRecent v n = s.getRecent v n) ∧
    (s.clear u).getImportantFacts v = s.getImportantFacts v ∧
    (s.clear u).getRecentMood v = s.getRecentMood v ∧
    (s.clear u).getChatCount v = s.getChatCount v := by
  have hv : v ≠ u := fun hc => h hc.symm
  have hm : (s.clear u).userMessages v = s.userMessages v := by
    unfold Store.userMessages
    rw [clear_messages]
    exact filter_comm_ne MsgRow.userId hv s.messages
  have hmem : (s.clear u).memories.filter (fun r => r.userId == v)
      = s.memories.filter (fun r => r.userId == v) := by
    rw [clear_memories]
    exact filter_comm_ne FactRow.userId hv s.memories
  have hmo : (s.clear u).moods.filter (fun r => r.userId == v)
      = s.moods.filter (fun r => r.userId == v) := by
    rw [clear_moods]
    exact filter_comm_ne MoodRow.userId hv s.moods
  refine ⟨?_, ?_, ?_, ?_, ?_⟩
  · unfold Store.getAll Store.getAllRows
    rw [hm]
  · intro n
    unfold Store.getRecent Store.getRecentRows
    rw [hm]
  · unfold Store.getImportantFacts
    rw [hmem]
  · unfold Store.getRecentMood
    rw [hmo]
  · unfold Store.getChatCount
    rw [hm]

def sampleStore : Store :=
  runOps [MemOp.addMsg "u" "user" "hi", MemOp.addMsg "v" "user" "hello",
    MemOp.addFact "v" "likes cats", MemOp.addMood "v" "happy"] Store.empty

/-- A role-tagged chat message, as sent to the completion endpoint. -/
structure ChatMsg where
  role : String
  content : String
deriving DecidableEq, Repr

/-- Result of one HTTP attempt against the completion endpoint: either the
transport fails (`err`, carrying an error id), or a response body arrives
whose `choices[0].message.content` extraction yields `some content`, or
`none` for an empty/malformed body. -/
inductive TransportResult where
  | err (e : Nat)
  | body (content : Option String)
deriving DecidableEq, Repr

/-- Errors surfaced by `chatWithLLM`: the input-validation error, a
transport error propagated from the last attempt, or the synthesized
empty-content error. -/
inductive LLMError where
  | invalidMessages
  | transport (e : Nat)
  | emptyContent
deriving DecidableEq, Repr

/-- Observable outcome of `chatWithLLM`: the returned content or raised
error, the number of attempts performed, and the backoff sleeps (in ms)
performed between attempts, in order. -/
structure LLMOutcome where
  result : Except LLMError String
  attempts : Nat
  sleeps : List Nat
deriving Repr

/-- The retry loop of `chatWithLLM` (`for attempt in 1..maxRetries`):
`attempt` is the current attempt number and `fuel` the number of loop
iterations still allowed (`maxRetries - attempt + 1`; the fuel-0 base case
is unreachable for positive `maxRetries`).  A non-empty content returns
immediately; a transport error or empty content on the final attempt
throws (the last error, or the synthesized empty-content error); otherwise
the loop sleeps `1000 * attempt` ms and retries. -/
def chatAttempts (t : Nat → TransportResult) (maxRetries : Nat) :
    Nat → Nat → LLMOutcome
  | _, 0 => ⟨Except.error LLMError.emptyContent, 0, []⟩
  | attempt, fuel + 1 =>
    match t attempt with
    | TransportResult.body (some c) => ⟨Except.ok c, 1, []⟩
    | TransportResult.body none =>
      if attempt = maxRetries then ⟨Except.error LLMError.emptyContent, 1, []⟩
      else
        let rest := chatAttempts t maxRetries (attempt + 1) fuel
        ⟨rest.result, rest.attempts + 1, 1000 * attempt :: rest.sleeps⟩
    | TransportResult.err e =>
      if attempt = maxRetries then ⟨Except.error (LLMError.transport e), 1, []⟩
      else
        let rest := chatAttempts t maxRetries (attempt + 1) fuel
        ⟨rest.result, rest.attempts + 1, 1000 * attempt :: rest.sleeps⟩

/-- `chatWithLLM(messages)` (defensive revision, `src/memory.js` lines
776-831): validates the messages array, then performs up to
`maxRetries = 3` attempts. -/
def chatWithLLM (t : Nat → TransportResult) (messages : List ChatMsg) : LLMOutcome :=
  if messages.isEmpty then ⟨Except.error LLMError.invalidMessages, 0, []⟩
  else chatAttempts t 3 1 3

theorem chatAttempts_le (t : Nat → TransportResult) (maxRetries : Nat)
    (attempt fuel : Nat) : (chatAttempts t maxRetries attempt fuel).attempts ≤ fuel := by
  induction fuel generalizing attempt with
  | zero => simp [chatAttempts]
  | succ fuel ih =>
    unfold chatAttempts
    cases t attempt with
    | err e =>
      by_cases ha : attempt = maxRetries
      · simp [ha]
      · simp only [ha, if_false]
        exact Nat.succ_le_succ (ih (attempt + 1))
    | body c =>
      cases c with
      | some s => simp
      | none =>
        by_cases ha : attempt = maxRetries
        · simp [ha]
        · simp only [ha, if_false]
          exact Nat.succ_le_succ (ih (attempt + 1))

/-- C2: the model client performs at most 3 attempts; with a transport that
fails twice then succeeds it returns the successful content after exactly
3 attempts with backoff sleeps of 1s then 2s; with a transport that always
fails it raises the last observed transport error after exactly 3
attempts; with a transport that always returns an empty/malformed body it
raises the synthesized empty-content error after exactly 3 attempts. -/
theorem chatWithLLM_retry_policy (t : Nat → TransportResult) (messages : List ChatMsg)
    (hm : messages.isEmpty = false) :
    (chatWithLLM t messages).attempts ≤ 3 ∧
    (∀ e1 e2 c, t 1 = TransportResult.err e1 → t 2 = TransportResult.err e2 →
      t 3 = TransportResult.body (some c) →
      chatWithLLM t messages = ⟨Except.ok c, 3, [1000, 2000]⟩) ∧
    (∀ e1 e2 e3, t 1 = TransportResult.err e1 → t 2 = TransportResult.err e2 →
      t 3 = TransportResult.err e3 →
      chatWithLLM t messages = ⟨Except.error (LLMError.transport e3), 3, [1000, 2000]⟩) ∧
    ((∀ a, 1 ≤ a → a ≤ 3 → t a = TransportResult.body none) →
      chatWithLLM t messages = ⟨Except.error LLMError.emptyContent, 3, [1000, 2000]⟩) := by
  unfold chatWithLLM
  rw [hm]
  simp only [Bool.false_eq_true, if_false]
  refine ⟨chatAttempts_le t 3 1 3, ?_, ?_, ?_⟩
  · intro e1 e2 c h1 h2 h3
    simp [chatAttempts, h1, h2, h3]
  · intro e1 e2 e3 h1 h2 h3
    simp [chatAttempts, h1, h2, h3]
  · intro h
    have h1 := h 1 (by omega) (by omega)
    have h2 := h 2 (by omega) (by omega)
    have h3 := h 3 (by omega) (by omega)
    simp [chatAttempts, h1, h2, h3]

/-- Transport that fails on the first two attempts and succeeds on the
third. -/
def c2Transport : Nat → TransportResult :=
  fun a => if a ≤ 2 then TransportResult.err 7 else TransportResult.body (some "hi")

def c2Messages : List ChatMsg := [ChatMsg.mk "user" "hello"]

theorem chatWithLLM_retry_policy_witness :
    (c2Messages.isEmpty = false) ∧
    (chatWithLLM c2Transport c2Messages).attempts ≤ 3 ∧
    chatWithLLM c2Transport c2Messages = ⟨Except.ok "hi", 3, [1000, 2000]⟩ :=
  ⟨rfl, (chatWithLLM_retry_policy c2Transport c2Messages rfl).1,
   (chatWithLLM_retry_policy c2Transport c2Messages rfl).2.1 7 7 "hi" rfl rfl rfl⟩

/-- Thirty minutes in ms (`USER_INACTIVE_THRESHOLD`): a user may be
proactively contacted only after this much inactivity. -/
def USER_INACTIVE_THRESHOLD : Nat := 30 * 60 * 1000

/-- Two hours in ms (`ACTIVE_MESSAGE_INTERVAL`): minimum spacing between
proactive messages to one user. -/
def ACTIVE_MESSAGE_INTERVAL : Nat := 2 * 60 * 60 * 1000

/-- The in-process session maps read by the scheduler
(`lastInteractionTime`, `lastActiveMessageTime`). -/
structure SessionState where
  lastInteractionTime : String → Option Nat
  lastActiveMessageTime : String → Option Nat

/-- `lastActiveMessageTime.set(userId, now)` after a successful send. -/
def SessionState.stamp (st : SessionState) (u : String) (now : Nat) : SessionState :=
  ⟨st.lastInteractionTime,
   fun v => if v = u then some now else st.lastActiveMessageTime v⟩

/-- The send condition of `initiateActiveConversation` for one user:
`now - lastInteraction > USER_INACTIVE_THRESHOLD && now - lastActiveMsg >
ACTIVE_MESSAGE_INTERVAL`, absent map entries defaulting to 0.  (`Nat`
subtraction truncates at 0 exactly as the JS comparison treats a negative
difference: both fail the strict `>` against a positive threshold.) -/
def proactiveGate (st : SessionState) (now : Nat) (u : String) : Bool :=
  decide (now - ((st.lastInteractionTime u).getD 0) > USER_INACTIVE_THRESHOLD) &&
  decide (now - ((st.lastActiveMessageTime u).getD 0) > ACTIVE_MESSAGE_INTERVAL)

/-- One sweep of `initiateActiveConversation` over the listed users:
returns the users messaged (in order) and the updated session state.
Generation always produces a message (the source falls back to a
hand-authored list) and delivery is modelled as succeeding, after which
the send is stamped. -/
def sweep (now : Nat) : List String → SessionState → List String × SessionState
  | [], st => ([], st)
  | u :: rest, st =>
    if proactiveGate st now u then
      let r := sweep now rest (st.stamp u now)
      (u :: r.1, r.2)
    else sweep now rest st

/-- `initiateActiveConversation`: sweeps every known user
(`memory.getUserIds()`). -/
def initiateActiveConversation (s : Store) (st : SessionState) (now : Nat) :
    List String × SessionState :=
  sweep now s.getUserIds st

theorem sweep_sent_subset (now : Nat) (users : List String) (st : SessionState)
    {x : String} (hx : x ∈ (sweep now users st).1) : x ∈ users := by
  induction users generalizing st with
  | nil => simp [sweep] at hx
  | cons u rest ih =>
    unfold sweep at hx
    by_cases hg : proactiveGate st now u
    · rw [if_pos hg] at hx
      rcases List.mem_cons.mp hx with heq | hmem
      · exact heq ▸ List.mem_cons_self u rest
      · exact List.mem_cons_of_mem u (ih _ hmem)
    · rw [if_neg hg] at hx
      exact List.mem_cons_of_mem u (ih _ hx)

theorem sweep_lastInteraction (now : Nat) (users : List String) (st : SessionState) :
    (sweep now users st).2.lastInteractionTime = st.lastInteractionTime := by
  induction users generalizing st with
  | nil => rfl
  | cons u rest ih =>
    unfold sweep
    by_cases hg : proactiveGate st now u
    · rw [if_pos hg]
      exact ih (st.stamp u now)
    · rw [if_neg hg]
      exact ih st

theorem sweep_not_mem (now : Nat) (users : List String) (st : SessionState)
    {u : String} (hu : u ∉ users) :
    (sweep now users st).2.lastActiveMessageTime u = st.lastActiveMessageTime u := by
  induction users generalizing st with
  | nil => rfl
  | cons v rest ih =>
    have hne : u ≠ v := fun hc => hu (hc ▸ List.mem_cons_self v rest)
    have hur : u ∉ rest := fun hc => hu (List.mem_cons_of_mem v hc)
    unfold sweep
    by_cases hg : proactiveGate st now v
    · rw [if_pos hg]
      rw [ih (st.stamp v now) hur]
      simp [SessionState.stamp, hne]
    · rw [if_neg hg]
      exact ih st hur

theorem gate_congr {st st2 : SessionState} (now : Nat) (u : String)
    (h1 : st2.lastInteractionTime u = st.lastInteractionTime u)
    (h2 : st2.lastActiveMessageTime u = st.lastActiveMessageTime u) :
    proactiveGate st2 now u = proactiveGate st now u := by
  unfold proactiveGate
  rw [h1, h2]

theorem sweep_mem_spec (now : Nat) (users : List String) (st : SessionState)
    {u : String} (hnd : users.Nodup) (hu : u ∈ users) :
    ((sweep now users st).1.count u = (if proactiveGate st now u then 1 else 0)) ∧
    ((sweep now users st).2.lastActiveMessageTime u
      = (if proactiveGate st now u then some now else st.lastActiveMessageTime u)) := by
  induction users generalizing st with
  | nil => cases hu
  | cons v rest ih =>
    have hvnotin : v ∉ rest := (List.nodup_cons.mp hnd).1
    have hnd2 : rest.Nodup := (List.nodup_cons.mp hnd).2
    rcases List.mem_cons.mp hu with heq | hmem
    · subst heq
      unfold sweep
      by_cases hg : proactiveGate st now u
      · rw [if_pos hg]
        have hnosend : u ∉ (sweep now rest (st.stamp u now)).1 :=
          fun hc => hvnotin (sweep_sent_subset now rest _ hc)
        constructor
        · simp only [if_pos hg, List.count_cons_self, List.count_eq_zero.mpr hnosend]
        · rw [sweep_not_mem now rest (st.stamp u now) hvnotin]
          simp [SessionState.stamp, hg]
      · rw [if_neg hg]
        have hnosend : u ∉ (sweep now rest st).1 :=
          fun hc => hvnotin (sweep_sent_subset now rest _ hc)
        constructor
        · simp only [if_neg hg, List.count_eq_zero.mpr hnosend]
        · rw [sweep_not_mem now rest st hvnotin]
          simp [hg]
    · have hne : u ≠ v := fun hc => hvnotin (hc ▸ hmem)
      unfold sweep
      by_cases hg : proactiveGate st now v
      · rw [if_pos hg]
        have e2 : (st.stamp v now).lastActiveMessageTime u = st.lastActiveMessageTime u := by
          simp [SessionState.stamp, hne]
        have hgu : proactiveGate (st.stamp v now) now u = proactiveGate st now u :=
          gate_congr now u rfl e2
        obtain ⟨c1, c2⟩ := ih (st.stamp v now) hnd2 hmem
        constructor
        · rw [List.count_cons_of_ne hne, c1, hgu]
        · rw [c2, hgu, e2]
      · rw [if_neg hg]
        exact ih st hnd2 hmem

/-- C3: one scheduler sweep messages a known user exactly when both
cooldown gates hold at sweep time — strictly more than 30 minutes since
the last interaction AND strictly more than 2 hours since the last
proactive send — and then it stamps `lastActiveMessageTime = now`; when
either gate fails, no message is sent to that user and the timestamp is
untouched.  `lastInteractionTime` is never modified by a sweep. -/
theorem scheduler_gates (s : Store) (st : SessionState) (now : Nat) (u : String)
    (hu : u ∈ s.getUserIds) :
    ((initiateActiveConversation s st now).1.count u =
      (if now - ((st.lastInteractionTime u).getD 0) > 30 * 60 * 1000 ∧
          now - ((st.lastActiveMessageTime u).getD 0) > 2 * 60 * 60 * 1000
        then 1 else 0)) ∧
    ((initiateActiveConversation s st now).2.lastActiveMessageTime u =
      (if now - ((st.lastInteractionTime u).getD 0) > 30 * 60 * 1000 ∧
          now - ((st.lastActiveMessageTime u).getD 0) > 2 * 60 * 60 * 1000
        then some now else st.lastActiveMessageTime u)) ∧
    (initiateActiveConversation s st now).2.lastInteractionTime = st.lastInteractionTime := by
  have hnd : s.getUserIds.Nodup := List.nodup_dedup _
  have hgate : proactiveGate st now u =
      decide (now - ((st.lastInteractionTime u).getD 0) > 30 * 60 * 1000 ∧
        now - ((st.lastActiveMessageTime u).getD 0) > 2 * 60 * 60 * 1000) := by
    simp [proactiveGate, USER_INACTIVE_THRESHOLD, ACTIVE_MESSAGE_INTERVAL]
  obtain ⟨c1, c2⟩ := sweep_mem_spec now s.getUserIds st hnd hu
  refine ⟨?_, ?_, sweep_lastInteraction now s.getUserIds st⟩
  · rw [initiateActiveConversation, c1, hgate]
    by_cases hp : now - ((st.lastInteractionTime u).getD 0) > 30 * 60 * 1000 ∧
        now - ((st.lastActiveMessageTime u).getD 0) > 2 * 60 * 60 * 1000
    · simp [hp]
    · simp [hp]
  · rw [initiateActiveConversation, c2, hgate]
    by_cases hp : now - ((st.lastInteractionTime u).getD 0) > 30 * 60 * 1000 ∧
        now - ((st.lastActiveMessageTime u).getD 0) > 2 * 60 * 60 * 1000
    · simp [hp]
    · simp [hp]

def c3Store : Store := runOps [MemOp.addMsg "u" "user" "hi"] Store.empty

def c3Session : SessionState := ⟨fun _ => some 0, fun _ => some 0⟩

def c3Now : Nat := 8 * 60 * 60 * 1000

theorem scheduler_gates_witness :
    ("u" ∈ c3Store.getUserIds) ∧
    (((initiateActiveConversation c3Store c3Session c3Now).1.count "u" =
      (if c3Now - ((c3Session.lastInteractionTime "u").getD 0) > 30 * 60 * 1000 ∧
          c3Now - ((c3Session.lastActiveMessageTime "u").getD 0) > 2 * 60 * 60 * 1000
        then 1 else 0)) ∧
    ((initiateActiveConversation c3Store c3Session c3Now).2.lastActiveMessageTime "u" =
      (if c3Now - ((c3Session.lastInteractionTime "u").getD 0) > 30 * 60 * 1000 ∧
          c3Now - ((c3Session.lastActiveMessageTime "u").getD 0) > 2 * 60 * 60 * 1000
        then some c3Now else c3Session.lastActiveMessageTime "u")) ∧
    (initiateActiveConversation c3Store c3Session c3Now).2.lastInteractionTime
      = c3Session.lastInteractionTime) :=
  ⟨by decide, scheduler_gates c3Store c3Session c3Now "u" (by decide)⟩

/-- C1 (amended): for every NON-NEGATIVE caller limit `n`, `getRecent`
returns at most `min n 50` messages, in chronological (oldest-first)
order, and the result is a suffix of `getAll` for the same user.  The
original claim extended the bound to negative `n`; the counterexample
below shows that a negative limit reaches SQLite unclamped and disables
the `LIMIT` clause, returning the entire history. -/
theorem getRecent_clamped_suffix (s : Store) (u : String) (n : Int) (hn : 0 ≤ n)
    (hchrono : s.messages.Pairwise (fun a b => a.createdAt < b.createdAt)) :
    ((s.getRecent u n).length : Int) ≤ min n 50 ∧
    Store.getRecent s u n <:+ Store.getAll s u ∧
    (s.getRecentRows u n).Pairwise (fun a b => a.createdAt < b.createdAt) := by
  have hml : ¬ (min n 50 < 0) := by omega
  have hrows : s.getRecentRows u n = lastN (min n 50).toNat (s.userMessages u) := by
    unfold Store.getRecentRows
    rw [if_neg hml]
  refine ⟨?_, ?_, ?_⟩
  · unfold Store.getRecent
    rw [List.length_map, hrows, lastN_length]
    omega
  · unfold Store.getRecent Store.getAll Store.getAllRows
    rw [hrows]
    refine (lastN_mono ?_ (s.userMessages u)).map (fun r => (r.role, r.content))
    omega
  · rw [hrows]
    have hp : (s.userMessages u).Pairwise (fun a b => a.createdAt < b.createdAt) :=
      hchrono.sublist (List.filter_sublist _)
    exact hp.sublist (lastN_suffix _ _).sublist

def c1Store : Store :=
  runOps (List.replicate 51 (MemOp.addMsg "u" "user" "hi")) Store.empty

/-- C1 counterexample: with 51 stored messages and caller limit −1,
`getRecent` returns all 51 messages.  `Math.min(-1, 50) = -1` reaches
SQLite as a negative `LIMIT`, which disables the bound, so the promised
cap (`≤ min(n, 50)`, in particular ≤ 50) fails for negative limits. -/
theorem getRecent_negative_limit_counterexample :
    (c1Store.getRecent "u" (-1)).length = 51 ∧
    ¬ ((c1Store.getRecent "u" (-1)).length ≤ 50) := by
  constructor <;> decide

theorem getRecent_clamped_suffix_witness :
    (0 ≤ (3 : Int)) ∧
    sampleStore.messages.Pairwise (fun a b => a.createdAt < b.createdAt) ∧
    (((sampleStore.getRecent "u" 3).length : Int) ≤ min 3 50 ∧
      Store.getRecent sampleStore "u" 3 <:+ Store.getAll sampleStore "u" ∧
      (sampleStore.getRecentRows "u" 3).Pairwise (fun a b => a.createdAt < b.createdAt)) :=
  ⟨by decide, by decide, getRecent_clamped_suffix sampleStore "u" 3 (by decide) (by decide)⟩

theorem clear_frame_other_users_witness :
    "u" ≠ "v" ∧
    ((sampleStore.clear "u").getAll "v" = sampleStore.getAll "v" ∧
      (∀ n : Int, (sampleStore.clear "u").getRecent "v" n = sampleStore.getRecent "v" n) ∧
      (sampleStore.clear "u").getImportantFacts "v" = sampleStore.getImportantFacts "v" ∧
      (sampleStore.clear "u").getRecentMood "v" = sampleStore.getRecentMood "v" ∧
      (sampleStore.clear "u").getChatCount "v" = sampleStore.getChatCount "v") :=
  ⟨by decide, clear_frame_other_users sampleStore "u" "v" (by decide)⟩

/-- Arguments of `buildSystemPrompt` (from `persona.js`, outside the
embedded core); the assembler and handler are parameterized over the
prompt-building function itself, since no property here depends on the
persona text. -/
structure PersonaArgs where
  userName : Option String := none
  importantFacts : List String := []
  chatCount : Nat := 0
  mood : Option String := none

/-- `getTimeGap`: hour-granular gap hints — ≥ 6 hours yields the long-gap
note (with the hour count interpolated), ≥ 1 hour the lighter note,
otherwise no hint; no hint either when the user has no recorded last
message time. -/
def getTimeGap (lastTime : Option Nat) (now : Nat) : Option String :=
  match lastTime with
  | none => none
  | some t =>
    let hours := (now - t) / (1000 * 60 * 60)
    if hours ≥ 6 then
      some ("距离上次聊天已经过了" ++ toString hours ++ "小时了，可以自然地问候一句")
    else if hours ≥ 1 then some "隔了一会儿才回，可以简单说一句"
    else none

/-- Per-turn context living outside the durable store: the persona
functions, the session maps' entries for this user, the current time, and
whether a storage read inside the assembler's `try` block throws
(`storeFail`). -/
structure TurnEnv where
  bsp : PersonaArgs → String
  currentMood : String
  savedName : Option String
  lastMsgTime : Option Nat
  now : Nat
  storeFail : Bool

/-- `MEMORY_LIMIT` (env default '20'). -/
def MEMORY_LIMIT : Int := 20

/-- `buildMessages` (`src/memory.js` 939-987): validates its arguments
(throwing on falsy ones), then assembles
`[system persona] ++ recent history ++ [optional time-gap system note] ++
[user message]`; any failure inside the `try` block falls back to
`[default persona, raw user message]`. -/
def buildMessages (env : TurnEnv) (s : Store) (userId userMessage : String) :
    Except String (List ChatMsg) :=
  if userId = "" ∨ userMessage = "" then
    Except.error "构建消息失败: 缺少必要参数"
  else if env.storeFail then
    Except.ok [ChatMsg.mk "system" (env.bsp {}), ChatMsg.mk "user" userMessage]
  else
    let recentMemories := (s.getRecent userId MEMORY_LIMIT).map (fun rc => ChatMsg.mk rc.1 rc.2)
    let importantFacts := s.getImportantFacts userId
    let chatCount := s.getChatCount userId
    let timeHint := getTimeGap env.lastMsgTime env.now
    let recentMood := s.getRecentMood userId
    let moodHint :=
      match recentMood with
      | some rm => env.currentMood ++ "，上次对话心情: " ++ rm
      | none => env.currentMood
    let systemPrompt := env.bsp ⟨env.savedName, importantFacts, chatCount, some moodHint⟩
    let base := ChatMsg.mk "system" systemPrompt :: recentMemories
    let withHint :=
      match timeHint with
      | some hint => base ++ [ChatMsg.mk "system" ("[系统提示: " ++ hint ++ "]")]
      | none => base
    Except.ok (withHint ++ [ChatMsg.mk "user" userMessage])

theorem buildMessages_isOk (env : TurnEnv) (s : Store) {userId userMessage : String}
    (h : ¬(userId = "" ∨ userMessage = "")) :
    ∃ l, buildMessages env s userId userMessage = Except.ok l := by
  unfold buildMessages
  rw [if_neg h]
  by_cases hf : env.storeFail
  · rw [if_pos hf]
    exact ⟨_, rfl⟩
  · rw [if_neg hf]
    exact ⟨_, rfl⟩

/-- C6: for valid (truthy) arguments, `buildMessages` always succeeds with
a list whose final entry is the new user message; and whenever any step of
assembly fails, the result is exactly the minimal fallback — the default
persona system message followed by the raw user message. -/
theorem buildMessages_last_user_fallback (env : TurnEnv) (s : Store)
    (userId userMessage : String) (h1 : userId ≠ "") (h2 : userMessage ≠ "") :
    ∃ l, buildMessages env s userId userMessage = Except.ok l ∧
      l.getLast? = some (ChatMsg.mk "user" userMessage) ∧
      (env.storeFail = true →
        l = [ChatMsg.mk "system" (env.bsp {}), ChatMsg.mk "user" userMessage]) := by
  unfold buildMessages
  rw [if_neg (not_or.mpr ⟨h1, h2⟩)]
  by_cases hf : env.storeFail
  · rw [if_pos hf]
    exact ⟨_, rfl, rfl, fun _ => rfl⟩
  · rw [if_neg hf]
    refine ⟨_, rfl, ?_, fun hc => absurd hc hf⟩
    exact List.getLast?_concat _

def c6Env : TurnEnv := ⟨fun _ => "PERSONA", "晚上有点困", some "Bob", some 0, 1000, false⟩

def c6FailEnv : TurnEnv :=
  ⟨fun _ => "PERSONA", "晚上有点困", some "Bob", some 0, 1000, true⟩

theorem buildMessages_last_user_fallback_witness :
    ("bob-id" ≠ "") ∧ ("hello" ≠ "") ∧
    (∃ l, buildMessages c6Env Store.empty "bob-id" "hello" = Except.ok l ∧
      l.getLast? = some (ChatMsg.mk "user" "hello") ∧
      (c6Env.storeFail = true →
        l = [ChatMsg.mk "system" (c6Env.bsp {}), ChatMsg.mk "user" "hello"])) ∧
    (∃ l, buildMessages c6FailEnv Store.empty "bob-id" "hello" = Except.ok l ∧
      l.getLast? = some (ChatMsg.mk "user" "hello") ∧
      (c6FailEnv.storeFail = true →
        l = [ChatMsg.mk "system" (c6FailEnv.bsp {}), ChatMsg.mk "user" "hello"])) :=
  ⟨by decide, by decide,
   buildMessages_last_user_fallback c6Env Store.empty "bob-id" "hello"
     (by decide) (by decide),
   buildMessages_last_user_fallback c6FailEnv Store.empty "bob-id" "hello"
     (by decide) (by decide)⟩



/-- JS `String.prototype.trim()`: drop leading and trailing whitespace
(modelled with `Char.isWhitespace`). -/
def trimStr (s : String) : String :=
  String.mk (((s.data.dropWhile Char.isWhitespace).reverse.dropWhile
    Char.isWhitespace).reverse)

/-- Externally visible actions of the message handler, in order. -/
inductive Effect where
  | sendTyping (userId : String)
  | sendText (userId : String) (text : String)
  | callModel (msgs : List ChatMsg)
deriving DecidableEq, Repr

/-- The "too long" notice sent for oversized inbound text. -/
def tooLongReply : String := "消息太长了，我处理不了..."

/-- The hand-authored fallback replies of the outer error handler. -/
def naturalReplies : List String :=
  ["刚才卡住了，你说啥？", "没听清，再说一遍？", "有点走神了...", "信号不好吗，我没收到"]

/-- `naturalReplies[Math.floor(Math.random() * naturalReplies.length)]`,
with the random draw supplied as `pick`. -/
def naturalReply (pick : Nat) : String :=
  naturalReplies.getD (pick % naturalReplies.length) ""

/-- What one `handleMessage` call did: its outward effects, the store it
leaves behind, the user-name map entry it leaves for this user, and which
background tasks it scheduled. -/
structure HandleResult where
  effects : List Effect
  store : Store
  savedName : Option String
  extractionScheduled : Bool
  moodScheduled : Bool
deriving DecidableEq, Repr

/-- `handleMessage` (defensive revision, `src/memory.js` 992-1097):
validates the message, rejects text over 1000 characters with the
"too long" notice, saves the user name, ignores `/`-commands, assembles
context, calls the model (`llm` is the observed outcome of `chatWithLLM`),
sends the reply, persists both turns, and schedules fact extraction
exactly when the stored message count is a multiple of 10 (mood analysis
on every completed turn).  A reply over 4096 characters hits the `const`
reassignment `TypeError`, so the outer catch sends a natural fallback and
nothing is stored. -/
def saveName (saved userName : Option String) : Option String :=
  match saved, userName with
  | none, some n => some n
  | other, _ => other

def handleMessage (env : TurnEnv) (s : Store) (llm : Except Nat String) (pick : Nat)
    (userId userMessage : String) (userName : Option String) : HandleResult :=
  if userId = "" ∨ userMessage = "" then ⟨[], s, env.savedName, false, false⟩
  else if userMessage.length > 1000 then
    ⟨[Effect.sendText userId tooLongReply], s, env.savedName, false, false⟩
  else
    let savedName2 := saveName env.savedName userName
    if userMessage.startsWith "/" then ⟨[], s, savedName2, false, false⟩
    else
      let env2 := { env with savedName := savedName2 }
      match buildMessages env2 s userId userMessage with
      | Except.error _ =>
        ⟨[Effect.sendTyping userId, Effect.sendText userId (naturalReply pick)],
         s, savedName2, false, false⟩
      | Except.ok messages =>
        match llm with
        | Except.error _ =>
          ⟨[Effect.sendTyping userId, Effect.callModel messages,
            Effect.sendText userId (naturalReply pick)], s, savedName2, false, false⟩
        | Except.ok reply =>
          if (trimStr reply).length = 0 then
            ⟨[Effect.sendTyping userId, Effect.callModel messages,
              Effect.sendText userId "嗯..."], s, savedName2, false, false⟩
          else if reply.length > 4096 then
            ⟨[Effect.sendTyping userId, Effect.callModel messages,
              Effect.sendText userId (naturalReply pick)], s, savedName2, false, false⟩
          else
            let s2 := (s.add userId "user" userMessage).add userId "assistant" reply
            ⟨[Effect.sendTyping userId, Effect.callModel messages,
              Effect.sendText userId reply], s2, savedName2,
             decide (s2.getChatCount userId % 10 = 0), true⟩

/-- C7: an inbound message longer than the 1000-character cap makes the
handler send exactly the "too long" notice and return: the model is never
invoked, the store is untouched, and no background task is scheduled. -/
theorem handleMessage_too_long (env : TurnEnv) (s : Store) (llm : Except Nat String)
    (pick : Nat) (userId userMessage : String) (userName : Option String)
    (h1 : userId ≠ "") (hlen : userMessage.length > 1000) :
    (handleMessage env s llm pick userId userMessage userName).effects
      = [Effect.sendText userId tooLongReply] ∧
    (handleMessage env s llm pick userId userMessage userName).store = s ∧
    (∀ msgs, Effect.callModel msgs ∉
      (handleMessage env s llm pick userId userMessage userName).effects) ∧
    (handleMessage env s llm pick userId userMessage userName).extractionScheduled = false := by
  have h2 : userMessage ≠ "" := by
    intro hc
    rw [hc] at hlen
    simp at hlen
  unfold handleMessage
  rw [if_neg (not_or.mpr ⟨h1, h2⟩), if_pos hlen]
  refine ⟨rfl, rfl, ?_, rfl⟩
  intro msgs hmem
  simp at hmem

/-- An inbound message of 1001 characters. -/
def longMsg : String := String.mk (List.replicate 1001 'a')

theorem longMsg_length : longMsg.length = 1001 := by
  show (List.replicate 1001 'a').length = 1001
  exact List.length_replicate 1001 'a' 

theorem handleMessage_too_long_witness :
    ("bob-id" ≠ "") ∧ (longMsg.length > 1000) ∧
    ((handleMessage c6Env Store.empty (Except.ok "ok") 0 "bob-id" longMsg none).effects
      = [Effect.sendText "bob-id" tooLongReply] ∧
    (handleMessage c6Env Store.empty (Except.ok "ok") 0 "bob-id" longMsg none).store
      = Store.empty ∧
    (∀ msgs, Effect.callModel msgs ∉
      (handleMessage c6Env Store.empty (Except.ok "ok") 0 "bob-id" longMsg none).effects) ∧
    (handleMessage c6Env Store.empty (Except.ok "ok") 0 "bob-id" longMsg none).extractionScheduled
      = false) :=
  ⟨by decide, by rw [longMsg_length]; omega,
   handleMessage_too_long c6Env Store.empty (Except.ok "ok") 0 "bob-id" longMsg none
     (by decide) (by rw [longMsg_length]; omega)⟩


/-- JS `line.replace(/^[-•*]\\s*/, '')`: strip one leading bullet character
together with the whitespace following it; lines without a leading bullet
are untouched. -/
def stripBullet (l : String) : String :=
  match l.data with
  | c :: rest =>
    if c = '-' ∨ c = '•' ∨ c = '*' then String.mk (rest.dropWhile Char.isWhitespace)
    else l
  | [] => l

/-- One parsed line of the extraction response: bullet strip then
`.trim()`. -/
def cleanLine (l : String) : String := trimStr (stripBullet l)

/-- The line filter of `extractImportantFacts`:
`line.length > 3 && line.length < 100 && line !== ''`. -/
def factFilter (l : String) : Bool :=
  decide (l.length > 3) && decide (l.length < 100) && decide (l ≠ "")

/-- Split the model response on newlines, clean each line, keep the lines
passing the length filter. -/
def parseFacts (result : String) : List String :=
  ((result.splitOn "\n").map cleanLine).filter factFilter

/-- `extractImportantFacts` (`src/memory.js` 836-884): requires a user id
and at least 2 of the last ≤20 stored messages; a failed model call, an
empty response or the "nothing to remember" signal `无` yield no facts;
otherwise each parsed fact is recorded idempotently.  Returns the facts
recorded and the store left behind. -/
def extractImportantFacts (s : Store) (userId : String) (llm : Except Nat String) :
    List String × Store :=
  if userId = "" then ([], s)
  else
    let lastMessages := lastN 20 (s.getAll userId)
    if lastMessages.length = 0 then ([], s)
    else if lastMessages.length < 2 then ([], s)
    else
      match llm with
      | Except.error _ => ([], s)
      | Except.ok result =>
        if result = "" ∨ result = "无" then ([], s)
        else
          let facts := parseFacts result
          (facts, facts.foldl (fun st f => st.addImportantFact userId f) s)

theorem parseFacts_mem (result f : String) :
    f ∈ parseFacts result ↔
      (∃ l ∈ result.splitOn "\n", cleanLine l = f) ∧ 3 < f.length ∧ f.length < 100 := by
  unfold parseFacts factFilter
  rw [List.mem_filter, List.mem_map]
  constructor
  · rintro ⟨⟨l, hl, hcl⟩, hp⟩
    simp only [Bool.and_eq_true, decide_eq_true_eq] at hp
    exact ⟨⟨l, hl, hcl⟩, hp.1.1, hp.1.2⟩
  · rintro ⟨⟨l, hl, hcl⟩, h3, h100⟩
    refine ⟨⟨l, hl, hcl⟩, ?_⟩
    have hne : f ≠ "" := by
      intro hc
      rw [hc] at h3
      exact absurd h3 (by decide)
    simp only [Bool.and_eq_true, decide_eq_true_eq]
    exact ⟨⟨h3, h100⟩, hne⟩

theorem extractImportantFacts_facts (s : Store) {userId result : String}
    (hu : userId ≠ "") (hmsg : 2 ≤ (lastN 20 (s.getAll userId)).length)
    (hres : ¬(result = "" ∨ result = "无")) :
    (extractImportantFacts s userId (Except.ok result)).1 = parseFacts result := by
  unfold extractImportantFacts
  rw [if_neg hu, if_neg (by omega : ¬(lastN 20 (s.getAll userId)).length = 0),
    if_neg (by omega : ¬(lastN 20 (s.getAll userId)).length < 2)]
  dsimp only
  rw [if_neg hres]

theorem extractImportantFacts_none_signal (s : Store) (userId : String) :
    (extractImportantFacts s userId (Except.ok "无")).1 = [] := by
  unfold extractImportantFacts
  by_cases hu : userId = ""
  · rw [if_pos hu]
  · rw [if_neg hu]
    by_cases h0 : (lastN 20 (s.getAll userId)).length = 0
    · rw [if_pos h0]
    · rw [if_neg h0]
      by_cases h2 : (lastN 20 (s.getAll userId)).length < 2
      · rw [if_pos h2]
      · rw [if_neg h2]
        dsimp only
        rw [if_pos (show ("无" : String) = "" ∨ ("无" : String) = "无" from Or.inr rfl)]

theorem handleMessage_trigger (env : TurnEnv) (s : Store) (pick : Nat)
    (userId userMessage reply : String) (userName : Option String)
    (h1 : userId ≠ "") (h2 : userMessage ≠ "")
    (hlen : ¬(userMessage.length > 1000)) (hcmd : userMessage.startsWith "/" = false)
    (hr1 : ¬((trimStr reply).length = 0)) (hr2 : ¬(reply.length > 4096)) :
    ((handleMessage env s (Except.ok reply) pick userId userMessage userName).extractionScheduled
      = true ↔
      ((s.add userId "user" userMessage).add userId "assistant" reply).getChatCount userId
        % 10 = 0) ∧
    (handleMessage env s (Except.ok reply) pick userId userMessage userName).store
      = (s.add userId "user" userMessage).add userId "assistant" reply := by
  unfold handleMessage
  rw [if_neg (not_or.mpr ⟨h1, h2⟩), if_neg hlen]
  simp only [hcmd, Bool.false_eq_true, if_false]
  obtain ⟨msgs, hmb⟩ := buildMessages_isOk
    { env with savedName := saveName env.savedName userName } s (not_or.mpr ⟨h1, h2⟩)
  rw [hmb]
  simp only [if_neg hr1, if_neg hr2]
  refine ⟨?_, ?_⟩
  · simp
  · trivial


/-- C8: after a completed turn the handler schedules fact extraction
exactly when the user's cumulative stored message count is a multiple of
10; the extraction input is the last ≤ 20 stored messages; the facts
recorded are exactly the cleaned (bullet-stripped, trimmed) response
lines of length strictly between 3 and 100; and the "nothing to
remember" response `无` records zero facts without error. -/
theorem fact_extraction_trigger_and_filter (env : TurnEnv) (s : Store) (pick : Nat)
    (userId userMessage reply result : String) (userName : Option String)
    (h1 : userId ≠ "") (h2 : userMessage ≠ "")
    (hlen : ¬(userMessage.length > 1000)) (hcmd : userMessage.startsWith "/" = false)
    (hr1 : ¬((trimStr reply).length = 0)) (hr2 : ¬(reply.length > 4096))
    (hmsg : 2 ≤ (lastN 20 (s.getAll userId)).length)
    (hres : ¬(result = "" ∨ result = "无")) :
    ((handleMessage env s (Except.ok reply) pick userId userMessage userName).extractionScheduled
      = true ↔
      ((s.add userId "user" userMessage).add userId "assistant" reply).getChatCount userId
        % 10 = 0) ∧
    (lastN 20 (s.getAll userId)).length ≤ 20 ∧
    (∀ f, f ∈ (extractImportantFacts s userId (Except.ok result)).1 ↔
      (∃ l ∈ result.splitOn "\n", cleanLine l = f) ∧ 3 < f.length ∧ f.length < 100) ∧
    (extractImportantFacts s userId (Except.ok "无")).1 = [] :=
  ⟨(handleMessage_trigger env s pick userId userMessage reply userName
      h1 h2 hlen hcmd hr1 hr2).1,
   by
     rw [lastN_length]
     omega,
   fun f => by
     rw [extractImportantFacts_facts s h1 hmsg hres]
     exact parseFacts_mem result f,
   extractImportantFacts_none_signal s userId⟩

def c8Store : Store :=
  runOps [MemOp.addMsg "u" "user" "你叫什么", MemOp.addMsg "u" "assistant" "我叫Rose"]
    Store.empty

def c8Result : String := "- 对方叫小明\n喜欢猫\n无"

theorem fact_extraction_trigger_and_filter_witness :
    ("u" ≠ "") ∧ ("你好" ≠ "") ∧ (¬(("你好" : String).length > 1000)) ∧
    (("你好" : String).startsWith "/" = false) ∧
    (¬((trimStr "挺好的").length = 0)) ∧ (¬(("挺好的" : String).length > 4096)) ∧
    (2 ≤ (lastN 20 (c8Store.getAll "u")).length) ∧
    (¬(c8Result = "" ∨ c8Result = "无")) ∧
    (((handleMessage c6Env c8Store (Except.ok "挺好的") 0 "u" "你好" none).extractionScheduled
      = true ↔
      ((c8Store.add "u" "user" "你好").add "u" "assistant" "挺好的").getChatCount "u"
        % 10 = 0) ∧
    (lastN 20 (c8Store.getAll "u")).length ≤ 20 ∧
    (∀ f, f ∈ (extractImportantFacts c8Store "u" (Except.ok c8Result)).1 ↔
      (∃ l ∈ c8Result.splitOn "\n", cleanLine l = f) ∧ 3 < f.length ∧ f.length < 100) ∧
    (extractImportantFacts c8Store "u" (Except.ok "无")).1 = []) :=
  ⟨by decide, by decide, by decide, by decide, by decide, by decide, by decide, by decide,
   fact_extraction_trigger_and_filter c6Env c8Store 0 "u" "你好" "挺好的" c8Result none
     (by decide) (by decide) (by decide) (by decide) (by decide) (by decide)
     (by decide) (by decide)⟩


/-! The caching revision of the `MemoryStore` (`src/memory.js` 12-203)
versus the cache-free revision (the prepared-statement revision, whose
`getImportantFacts` / `getRecentMood` are textually the ones at lines
620-635).  Both revisions run the same SQL writes (plain inserts, the
conflict-ignoring fact insert, insert-then-trim, per-user delete); the
cached one additionally memoizes the two reads per user and invalidates
on `addImportantFact`, `addMood` and `clear`. -/

/-- `MemoryStore.add` without the defensive validation (revisions 1-2):
plain `INSERT INTO messages`. -/
def Store.addRaw (s : Store) (userId role content : String) : Store :=
  { s with
    messages := s.messages ++ [⟨userId, role, content, s.clock⟩]
    clock := s.clock + 1 }

/-- `MemoryStore.addImportantFact` without validation:
`INSERT ... ON CONFLICT(user_id, fact) DO NOTHING`. -/
def Store.addFactRaw (s : Store) (userId fact : String) : Store :=
  if s.memories.any (fun r => r.userId == userId && r.fact == fact) then s
  else
    { s with
      memories := s.memories ++ [⟨userId, fact, s.clock⟩]
      clock := s.clock + 1 }

/-- `MemoryStore.addMood` without validation: insert then trim to the 50
most recent rows of the user. -/
def Store.addMoodRaw (s : Store) (userId mood : String) : Store :=
  let inserted := s.moods ++ [⟨userId, mood, s.clock⟩]
  let mineLen := (inserted.filter (fun r => r.userId == userId)).length
  { s with
    moods := deleteOldest userId (mineLen - 50) inserted
    clock := s.clock + 1 }

/-- State of the caching revision: the same database plus the two
in-process memo maps. -/
structure CachedStore where
  base : Store
  importantCache : String → Option (List String)
  moodCache : String → Option String

def CachedStore.empty : CachedStore := ⟨Store.empty, fun _ => none, fun _ => none⟩

def CachedStore.add (c : CachedStore) (u role content : String) : CachedStore :=
  { c with base := c.base.addRaw u role content }

/-- Cached `addImportantFact`: insert, then `importantCache.delete(userId)`. -/
def CachedStore.addImportantFact (c : CachedStore) (u f : String) : CachedStore :=
  { base := c.base.addFactRaw u f
    importantCache := fun v => if v = u then none else c.importantCache v
    moodCache := c.moodCache }

/-- Cached `addMood`: insert + trim, then `moodCache.delete(userId)`. -/
def CachedStore.addMood (c : CachedStore) (u m : String) : CachedStore :=
  { base := c.base.addMoodRaw u m
    importantCache := c.importantCache
    moodCache := fun v => if v = u then none else c.moodCache v }

/-- Cached `clear`: delete the rows and both cache entries. -/
def CachedStore.clear (c : CachedStore) (u : String) : CachedStore :=
  { base := c.base.clear u
    importantCache := fun v => if v = u then none else c.importantCache v
    moodCache := fun v => if v = u then none else c.moodCache v }

/-- Cached `getImportantFacts`: serve from the cache, else query and
memoize.  Returns the result and the state left behind. -/
def CachedStore.getImportantFacts (c : CachedStore) (u : String) :
    List String × CachedStore :=
  match c.importantCache u with
  | some facts => (facts, c)
  | none =>
    let facts := c.base.getImportantFacts u
    (facts,
     { c with importantCache := fun v => if v = u then some facts else c.importantCache v })

/-- Cached `getRecentMood`: serve from the cache, else query; only a
non-null mood is memoized. -/
def CachedStore.getRecentMood (c : CachedStore) (u : String) :
    Option String × CachedStore :=
  match c.moodCache u with
  | some m => (some m, c)
  | none =>
    match c.base.getRecentMood u with
    | some m =>
      (some m, { c with moodCache := fun v => if v = u then some m else c.moodCache v })
    | none => (none, c)

/-- One store call, now including the two memoized reads. -/
inductive StoreOp where
  | addMsg (u role content : String)
  | addFact (u f : String)
  | addMood (u m : String)
  | clear (u : String)
  | readFacts (u : String)
  | readMood (u : String)
deriving DecidableEq, Repr

/-- Observable output of a read. -/
inductive ReadOut where
  | facts (l : List String)
  | mood (m : Option String)
deriving DecidableEq, Repr

def stepPlain (s : Store) : StoreOp → Store × List ReadOut
  | .addMsg u r c2 => (s.addRaw u r c2, [])
  | .addFact u f => (s.addFactRaw u f, [])
  | .addMood u m => (s.addMoodRaw u m, [])
  | .clear u => (s.clear u, [])
  | .readFacts u => (s, [ReadOut.facts (s.getImportantFacts u)])
  | .readMood u => (s, [ReadOut.mood (s.getRecentMood u)])

def runPlain : List StoreOp → Store → Store × List ReadOut
  | [], s => (s, [])
  | op :: rest, s =>
    let st := stepPlain s op
    let r := runPlain rest st.1
    (r.1, st.2 ++ r.2)

def stepCached (c : CachedStore) : StoreOp → CachedStore × List ReadOut
  | .addMsg u r c2 => (c.add u r c2, [])
  | .addFact u f => (c.addImportantFact u f, [])
  | .addMood u m => (c.addMood u m, [])
  | .clear u => (c.clear u, [])
  | .readFacts u =>
    let r := c.getImportantFacts u
    (r.2, [ReadOut.facts r.1])
  | .readMood u =>
    let r := c.getRecentMood u
    (r.2, [ReadOut.mood r.1])

def runCached : List StoreOp → CachedStore → CachedStore × List ReadOut
  | [], c => (c, [])
  | op :: rest, c =>
    let st := stepCached c op
    let r := runCached rest st.1
    (r.1, st.2 ++ r.2)

/-- Cache coherence: every memoized entry equals what the query would
return right now. -/
def Coherent (c : CachedStore) : Prop :=
  (∀ u l, c.importantCache u = some l → l = c.base.getImportantFacts u) ∧
  (∀ u m, c.moodCache u = some m → c.base.getRecentMood u = some m)

theorem getImportantFacts_eq_of_memories {s1 s2 : Store} (h : s1.memories = s2.memories)
    (v : String) : s1.getImportantFacts v = s2.getImportantFacts v := by
  unfold Store.getImportantFacts
  rw [h]

theorem getRecentMood_eq_of_moods {s1 s2 : Store} (h : s1.moods = s2.moods)
    (v : String) : s1.getRecentMood v = s2.getRecentMood v := by
  unfold Store.getRecentMood
  rw [h]

@[simp] theorem addFactRaw_moods (s : Store) (u f : String) :
    (s.addFactRaw u f).moods = s.moods := by
  unfold Store.addFactRaw
  split <;> rfl

theorem addFactRaw_getImportantFacts_ne (s : Store) {u v : String} (f : String)
    (h : v ≠ u) : (s.addFactRaw u f).getImportantFacts v = s.getImportantFacts v := by
  unfold Store.addFactRaw
  split
  · rfl
  · unfold Store.getImportantFacts
    dsimp only
    rw [List.filter_append]
    have hrow : ((FactRow.mk u f s.clock).userId == v) = false := by
      simp only [beq_eq_false_iff_ne, ne_eq]
      exact fun hc => h hc.symm
    simp only [List.filter_cons, hrow, List.filter_nil, List.append_nil, cond_false,
      Bool.false_eq_true, if_false]

theorem addMoodRaw_getRecentMood_ne (s : Store) {u v : String} (m : String)
    (h : v ≠ u) : (s.addMoodRaw u m).getRecentMood v = s.getRecentMood v := by
  unfold Store.addMoodRaw Store.getRecentMood
  dsimp only
  rw [deleteOldest_filter_ne u h, List.filter_append]
  have hrow : ((MoodRow.mk u m s.clock).userId == v) = false := by
    simp only [beq_eq_false_iff_ne, ne_eq]
    exact fun hc => h hc.symm
  simp only [List.filter_cons, hrow, List.filter_nil, List.append_nil, cond_false,
    Bool.false_eq_true, if_false]

theorem clear_getImportantFacts_ne (s : Store) {u v : String} (h : v ≠ u) :
    (s.clear u).getImportantFacts v = s.getImportantFacts v := by
  unfold Store.getImportantFacts
  rw [clear_memories, filter_comm_ne FactRow.userId h]

theorem clear_getRecentMood_ne (s : Store) {u v : String} (h : v ≠ u) :
    (s.clear u).getRecentMood v = s.getRecentMood v := by
  unfold Store.getRecentMood
  rw [clear_moods, filter_comm_ne MoodRow.userId h]

theorem stepCached_spec {c : CachedStore} {s : Store} (hb : c.base = s) (hc : Coherent c)
    (op : StoreOp) :
    (stepCached c op).1.base = (stepPlain s op).1 ∧
    Coherent (stepCached c op).1 ∧
    (stepCached c op).2 = (stepPlain s op).2 := by
  subst hb
  cases op with
  | addMsg u r c2 =>
    dsimp only [stepCached, stepPlain, CachedStore.add]
    refine ⟨rfl, ⟨?_, ?_⟩, rfl⟩
    · intro v l hv
      dsimp only at hv ⊢
      exact hc.1 v l hv
    · intro v m hv
      dsimp only at hv ⊢
      exact hc.2 v m hv
  | addFact u f =>
    dsimp only [stepCached, stepPlain, CachedStore.addImportantFact]
    refine ⟨rfl, ⟨?_, ?_⟩, rfl⟩
    · intro v l hv
      dsimp only at hv ⊢
      by_cases hvu : v = u
      · rw [if_pos hvu] at hv
        cases hv
      · rw [if_neg hvu] at hv
        rw [hc.1 v l hv]
        exact (addFactRaw_getImportantFacts_ne c.base f hvu).symm
    · intro v m hv
      dsimp only at hv ⊢
      rw [getRecentMood_eq_of_moods (addFactRaw_moods c.base u f) v]
      exact hc.2 v m hv
  | addMood u m =>
    dsimp only [stepCached, stepPlain, CachedStore.addMood]
    refine ⟨rfl, ⟨?_, ?_⟩, rfl⟩
    · intro v l hv
      dsimp only at hv ⊢
      rw [hc.1 v l hv]
      exact (getImportantFacts_eq_of_memories rfl v).symm
    · intro v m2 hv
      dsimp only at hv ⊢
      by_cases hvu : v = u
      · rw [if_pos hvu] at hv
        cases hv
      · rw [if_neg hvu] at hv
        rw [addMoodRaw_getRecentMood_ne c.base m hvu]
        exact hc.2 v m2 hv
  | clear u =>
    dsimp only [stepCached, stepPlain, CachedStore.clear]
    refine ⟨rfl, ⟨?_, ?_⟩, rfl⟩
    · intro v l hv
      dsimp only at hv ⊢
      by_cases hvu : v = u
      · rw [if_pos hvu] at hv
        cases hv
      · rw [if_neg hvu] at hv
        rw [hc.1 v l hv]
        exact (clear_getImportantFacts_ne c.base hvu).symm
    · intro v m hv
      dsimp only at hv ⊢
      by_cases hvu : v = u
      · rw [if_pos hvu] at hv
        cases hv
      · rw [if_neg hvu] at hv
        rw [clear_getRecentMood_ne c.base hvu]
        exact hc.2 v m hv
  | readFacts u =>
    dsimp only [stepCached, stepPlain, CachedStore.getImportantFacts]
    cases hr : c.importantCache u with
    | some l =>
      dsimp only
      refine ⟨rfl, hc, ?_⟩
      rw [hc.1 u l hr]
    | none =>
      dsimp only
      refine ⟨rfl, ⟨?_, ?_⟩, rfl⟩
      · intro v l hv
        dsimp only at hv ⊢
        by_cases hvu : v = u
        · subst hvu
          rw [if_pos rfl] at hv
          cases hv
          rfl
        · rw [if_neg hvu] at hv
          exact hc.1 v l hv
      · intro v m hv
        dsimp only at hv ⊢
        exact hc.2 v m hv
  | readMood u =>
    dsimp only [stepCached, stepPlain, CachedStore.getRecentMood]
    cases hr : c.moodCache u with
    | some m =>
      dsimp only
      refine ⟨rfl, hc, ?_⟩
      rw [hc.2 u m hr]
    | none =>
      cases hq : c.base.getRecentMood u with
      | some m =>
        dsimp only
        refine ⟨rfl, ⟨?_, ?_⟩, ?_⟩
        · intro v l hv
          dsimp only at hv ⊢
          exact hc.1 v l hv
        · intro v m2 hv
          dsimp only at hv ⊢
          by_cases hvu : v = u
          · subst hvu
            rw [if_pos rfl] at hv
            cases hv
            exact hq
          · rw [if_neg hvu] at hv
            exact hc.2 v m2 hv
        · rfl
      | none =>
        dsimp only
        refine ⟨rfl, ⟨?_, ?_⟩, ?_⟩
        · intro v l hv
          exact hc.1 v l hv
        · intro v m hv
          exact hc.2 v m hv
        · rfl

theorem runCached_eq_runPlain (ops : List StoreOp) {c : CachedStore} {s : Store}
    (hb : c.base = s) (hc : Coherent c) :
    (runCached ops c).2 = (runPlain ops s).2 ∧
    (runCached ops c).1.base = (runPlain ops s).1 := by
  induction ops generalizing c s with
  | nil => exact ⟨rfl, hb⟩
  | cons op rest ih =>
    obtain ⟨h1, h2, h3⟩ := stepCached_spec hb hc op
    obtain ⟨r1, r2⟩ := ih h1 h2
    dsimp only [runCached, runPlain]
    refine ⟨?_, r2⟩
    rw [h3, r1]

/-- C10: the caching revision of the store is observationally equivalent
to the cache-free revision — every sequence of store operations (writes,
clears, and the two memoized reads, starting from an empty database and
empty caches) produces identical `getImportantFacts` and `getRecentMood`
results in both revisions. -/
theorem cached_store_equiv (ops : List StoreOp) :
    (runCached ops CachedStore.empty).2 = (runPlain ops Store.empty).2 :=
  (runCached_eq_runPlain ops rfl
    ⟨(fun _ _ h => Option.noConfusion h), (fun _ _ h => Option.noConfusion h)⟩).1

end AlmaBot
